import Mathlib

/-!
# Verification of the HR-automation recruitment pipeline

Shallow embedding of the scoring engine (`agents/candidate_screener.py`),
the interview coordinator (`agents/interview_coordinator.py`) and the
workflow orchestrator (`recruitment_orchestrator.py`), together with proofs
of the specified properties.

Modelling conventions:
* Python strings are Lean `String`s; Python `in`, `startswith`, `lower`,
  `split()` and `replace` are given explicit structural definitions below
  with the same character-level semantics.
* Python numbers (ints and floats) are modelled as `ℤ` / `ℚ`; `round(x, 2)`
  is modelled as rounding to an integer multiple of `1/100`.
* Python dicts used as stage→record maps are association lists with
  insert-or-overwrite update, preserving insertion order (as Python does).
* Timestamps (`datetime.now()`) are modelled as explicit integer-valued
  parameters (`now`); the AI text-generation calls (feedback and question
  generation) are external capabilities outside the embedded core, so the
  generated text fields are omitted from the records.
-/

namespace HRAuto

/-- Lowercasing, Python `str.lower` (character-wise). -/
def strLower (s : String) : String := ⟨s.data.map Char.toLower⟩

/-- Python `pre in s` for the special case of a prefix: `s.startswith(pre)`. -/
def strStartsWith (s pre : String) : Bool := pre.data.isPrefixOf s.data

/-- Contiguous-sublist test on character lists (Python substring `in`). -/
def charsContain (needle : List Char) : List Char → Bool
  | [] => needle.isEmpty
  | c :: rest => needle.isPrefixOf (c :: rest) || charsContain needle rest

/-- Python `needle in haystack` on strings (contiguous substring). -/
def strContains (haystack needle : String) : Bool :=
  charsContain needle.data haystack.data

/-- Python `s.replace(" ", "")`. -/
def removeSpaces (s : String) : String := ⟨s.data.filter (fun c => !(c == ' '))⟩

/-- Helper for whitespace splitting: accumulates the current word reversed. -/
def splitWsAux : List Char → List Char → List String
  | [], cur => if cur.isEmpty then [] else [⟨cur.reverse⟩]
  | c :: rest, cur =>
    if c.isWhitespace then
      if cur.isEmpty then splitWsAux rest []
      else (⟨cur.reverse⟩ : String) :: splitWsAux rest []
    else splitWsAux rest (c :: cur)

/-- Python `s.split()`: split on whitespace runs, dropping empty pieces. -/
def splitWs (s : String) : List String := splitWsAux s.data []

/-- Python `len(s.split())`. -/
def wordCount (s : String) : Nat := (splitWs s).length

/-- Python `round(x, 2)`: round to two decimal places. -/
def round2 (q : ℚ) : ℚ := (round (q * 100) : ℤ) / 100

/-! ## config.py -/

/-- Embedding of `EVALUATION_CRITERIA` from `config.py` as a keyed lookup. -/
def EVALUATION_CRITERIA (criterion : String) : ℚ :=
  if criterion = "Technical Skills" then 3/10
  else if criterion = "Communication" then 1/5
  else if criterion = "Experience" then 1/5
  else if criterion = "Cultural Fit" then 3/20
  else if criterion = "Problem Solving" then 3/20
  else 0

/-! ## agents/candidate_screener.py -/

/-- Result record of `CandidateScreener._analyze_skill_match`. -/
structure SkillMatch where
  score : ℚ
  matched_skills : List String
  missing_skills : List String
deriving Repr, DecidableEq

/-- The per-skill test of `_analyze_skill_match`: exact lowercase substring,
whitespace-stripped substring, or any individual word of the skill phrase. -/
def skill_matches (resume_lower skill_lower : String) : Bool :=
  strContains resume_lower skill_lower ||
  strContains (removeSpaces resume_lower) (removeSpaces skill_lower) ||
  (splitWs skill_lower).any (fun word => strContains resume_lower word)

/-- Embedding of `CandidateScreener._analyze_skill_match`. -/
def analyze_skill_match (resume_text : String) (required_skills : List String) :
    SkillMatch :=
  if resume_text = "" ∨ required_skills = [] then
    { score := 0, matched_skills := [], missing_skills := required_skills }
  else
    let resume_lower := strLower resume_text
    let matched := required_skills.filter
      (fun skill => skill_matches resume_lower (strLower skill))
    let missing := required_skills.filter
      (fun skill => !(skill_matches resume_lower (strLower skill)))
    let score : ℚ := (matched.length : ℚ) / (required_skills.length : ℚ) * 100
    { score := round2 score, matched_skills := matched, missing_skills := missing }

/-- Result record of `CandidateScreener._evaluate_experience`. -/
structure ExperienceMatch where
  score : ℚ
  candidate_years : ℤ
  required_years : ℚ
  assessment : String
  experience_gap : ℚ
deriving Repr, DecidableEq

/-- Required-years derivation inside `_evaluate_experience`:
`"5+" in level → 5`, `"0-2" in level → 1`, otherwise `3.5`. -/
def parse_required_years (required_level : String) : ℚ :=
  if strContains required_level "5+" then 5
  else if strContains required_level "0-2" then 1
  else 7/2

/-- Embedding of `CandidateScreener._evaluate_experience`. -/
def evaluate_experience (candidate_years : ℤ) (required_level : String) :
    ExperienceMatch :=
  let required_years := parse_required_years required_level
  let score : ℚ :=
    if required_years ≤ (candidate_years : ℚ) then
      min 100 ((candidate_years : ℚ) / required_years * 100)
    else
      max 0 ((candidate_years : ℚ) / required_years * 100)
  let assessment :=
    if required_years * (3/2) ≤ (candidate_years : ℚ) then "Overqualified"
    else if required_years ≤ (candidate_years : ℚ) then "Well Qualified"
    else if required_years * (7/10) ≤ (candidate_years : ℚ) then "Moderately Qualified"
    else "Underqualified"
  { score := round2 score
    candidate_years := candidate_years
    required_years := required_years
    assessment := assessment
    experience_gap := (candidate_years : ℚ) - required_years }

/-- The fixed five-category keyword table of `_assess_cultural_fit`. -/
def cultural_indicators : List (String × List String) :=
  [("teamwork", ["team", "collaboration", "cooperation", "partnership"]),
   ("leadership", ["lead", "manage", "supervise", "mentor", "guide"]),
   ("innovation", ["innovate", "creative", "problem-solving", "improve"]),
   ("communication", ["communicate", "present", "write", "speak", "explain"]),
   ("adaptability", ["adapt", "flexible", "change", "learn", "grow"])]

/-- Result record of `CandidateScreener._assess_cultural_fit`. -/
structure CulturalFit where
  score : ℚ
  category_scores : List (String × ℕ)
  assessment : String
deriving Repr, DecidableEq

/-- Embedding of `CandidateScreener._assess_cultural_fit` (the `department` argument is
unused in the source as well). -/
def assess_cultural_fit (cover_letter resume_text department : String) :
    CulturalFit :=
  let combined := strLower (cover_letter ++ " " ++ resume_text)
  let scores := cultural_indicators.map
    (fun p => (p.1, (min 100 ((p.2.countP (fun kw => strContains combined kw)) * 20) : ℕ)))
  let overall : ℚ := ((scores.map (fun p => (p.2 : ℚ))).sum) / (scores.length : ℚ)
  let assessment :=
    if (80:ℚ) ≤ overall then "Excellent Cultural Fit"
    else if (60:ℚ) ≤ overall then "Good Cultural Fit"
    else if (40:ℚ) ≤ overall then "Moderate Cultural Fit"
    else "Limited Cultural Fit"
  { score := round2 overall, category_scores := scores, assessment := assessment }

/-- Embedding of `CandidateScreener._calculate_overall_score`, abstracted over the three
injected weights (the source reads them from `EVALUATION_CRITERIA`). -/
def calculate_overall_score_weighted
    (w_skill w_experience w_cultural skill_score experience_score cultural_score : ℚ) : ℚ :=
  round2 (skill_score * w_skill + experience_score * w_experience +
    cultural_score * w_cultural)

/-- Embedding of `CandidateScreener._calculate_overall_score` with the shipped weights. -/
def calculate_overall_score (skill_score experience_score cultural_score : ℚ) : ℚ :=
  calculate_overall_score_weighted
    (EVALUATION_CRITERIA "Technical Skills")
    (EVALUATION_CRITERIA "Experience")
    (EVALUATION_CRITERIA "Cultural Fit")
    skill_score experience_score cultural_score

/-- Embedding of `CandidateScreener._determine_recommendation`. -/
def determine_recommendation (overall_score : ℚ) : String :=
  if (85:ℚ) ≤ overall_score then "Strongly Recommend - Move to Technical Assessment"
  else if (70:ℚ) ≤ overall_score then "Recommend - Move to HR Interview"
  else if (55:ℚ) ≤ overall_score then "Consider - Additional Screening Required"
  else "Not Recommended - Does Not Meet Requirements"

/-- Candidate input record (`candidate_data` keys used by the core). -/
structure CandidateData where
  candidate_id : String
  candidate_name : String
  position : String
  resume_text : String
  cover_letter : String
  experience_years : ℤ
deriving Repr, DecidableEq

/-- Job-requirement record (`job_requirements` keys used by the core). -/
structure JobRequirement where
  position : String
  department : String
  required_skills : List String
  experience_level : String
  priority : String
deriving Repr, DecidableEq

/-- Screening-result record returned by `CandidateScreener.screen_candidate`
(the AI feedback text is produced by the external generation capability and
is omitted). -/
structure ScreeningResult where
  candidate_id : String
  overall_score : ℚ
  skill_match_score : ℚ
  experience_match_score : ℚ
  cultural_fit_score : ℚ
  recommendation : String
  skill_analysis : SkillMatch
  experience_analysis : ExperienceMatch
  cultural_fit_analysis : CulturalFit
  screening_status : String
deriving Repr, DecidableEq

/-- Embedding of `CandidateScreener.screen_candidate` (the happy path; the `except` arm
covers Python runtime errors that have no counterpart in the total model). -/
def screen_candidate (cand : CandidateData) (job : JobRequirement) :
    ScreeningResult :=
  let skill_match := analyze_skill_match cand.resume_text job.required_skills
  let experience_match := evaluate_experience cand.experience_years job.experience_level
  let cultural_fit := assess_cultural_fit cand.cover_letter cand.resume_text job.department
  let overall_score :=
    calculate_overall_score skill_match.score experience_match.score cultural_fit.score
  { candidate_id := cand.candidate_id
    overall_score := overall_score
    skill_match_score := skill_match.score
    experience_match_score := experience_match.score
    cultural_fit_score := cultural_fit.score
    recommendation := determine_recommendation overall_score
    skill_analysis := skill_match
    experience_analysis := experience_match
    cultural_fit_analysis := cultural_fit
    screening_status := "completed" }

/-! ## Arithmetic helper lemmas about two-decimal rounding -/

lemma round2_mono {a b : ℚ} (h : a ≤ b) : round2 a ≤ round2 b := by
  unfold round2
  have h1 : round (a * 100) ≤ round (b * 100) := by
    rw [round_eq, round_eq]
    exact Int.floor_mono (by linarith)
  have h2 : ((round (a * 100) : ℤ) : ℚ) ≤ ((round (b * 100) : ℤ) : ℚ) := by
    exact_mod_cast h1
  linarith

lemma round2_intCast (n : ℤ) : round2 ((n : ℚ)) = n := by
  unfold round2
  have h : ((n : ℚ) * 100) = (((n * 100 : ℤ) : ℚ)) := by push_cast; ring
  rw [h, round_intCast]
  push_cast
  field_simp

lemma round2_le_int {q : ℚ} {n : ℤ} (h : q ≤ (n : ℚ)) : round2 q ≤ (n : ℚ) := by
  have h1 := round2_mono h
  rwa [round2_intCast] at h1

lemma int_le_round2 {q : ℚ} {n : ℤ} (h : (n : ℚ) ≤ q) : (n : ℚ) ≤ round2 q := by
  have h1 := round2_mono h
  rwa [round2_intCast] at h1

lemma round2_nonneg {q : ℚ} (h : 0 ≤ q) : 0 ≤ round2 q := by
  have h1 := int_le_round2 (n := 0) (by exact_mod_cast h)
  simpa using h1

lemma round2_le_hundred {q : ℚ} (h : q ≤ 100) : round2 q ≤ 100 := by
  have h1 := round2_le_int (n := 100) (by exact_mod_cast h)
  simpa using h1

lemma round2_zero : round2 0 = 0 := by
  have h := round2_intCast 0
  simpa using h

lemma round2_hundred : round2 100 = 100 := by
  have h := round2_intCast 100
  simpa using h

/-! ## Theorems about the scoring engine -/

lemma length_filter_add_length_filter_not (p : α → Bool) (l : List α) :
    (l.filter p).length + (l.filter (fun a => !(p a))).length = l.length := by
  induction l with
  | nil => rfl
  | cons a t ih =>
    rcases hpa : p a with _ | _ <;> simp [List.filter_cons, hpa] <;> omega

/-- C1: for a non-empty required-skills list, `_analyze_skill_match` splits the
required skills into matched and missing skills (a partition: lengths add up,
every required skill lands in exactly one side), the score is
`matched/total*100` rounded to two decimals, and an empty resume yields score
0 with every required skill missing. -/
theorem claim_C1 (resume_text : String) (required_skills : List String)
    (hne : required_skills ≠ []) :
    (analyze_skill_match resume_text required_skills).matched_skills.length +
        (analyze_skill_match resume_text required_skills).missing_skills.length =
      required_skills.length
    ∧ (∀ s, s ∈ required_skills ↔
        (s ∈ (analyze_skill_match resume_text required_skills).matched_skills ∨
         s ∈ (analyze_skill_match resume_text required_skills).missing_skills))
    ∧ (∀ s, ¬(s ∈ (analyze_skill_match resume_text required_skills).matched_skills ∧
              s ∈ (analyze_skill_match resume_text required_skills).missing_skills))
    ∧ (analyze_skill_match resume_text required_skills).score =
        round2 (((analyze_skill_match resume_text required_skills).matched_skills.length : ℚ) /
          (required_skills.length : ℚ) * 100)
    ∧ (resume_text = "" →
        (analyze_skill_match resume_text required_skills).score = 0 ∧
        (analyze_skill_match resume_text required_skills).matched_skills = [] ∧
        (analyze_skill_match resume_text required_skills).missing_skills = required_skills) := by
  by_cases hres : resume_text = ""
  · have hcond : resume_text = "" ∨ required_skills = [] := Or.inl hres
    simp only [analyze_skill_match, if_pos hcond]
    refine ⟨by simp, by simp, by simp, ?_, fun _ => by simp⟩
    simp only [List.length_nil, Nat.cast_zero]
    rw [zero_div, zero_mul, round2_zero]
  · have hcond : ¬(resume_text = "" ∨ required_skills = []) := by
      rintro (h | h)
      · exact hres h
      · exact hne h
    simp only [analyze_skill_match, if_neg hcond]
    refine ⟨?_, ?_, ?_, by simp, fun h => absurd h hres⟩
    · exact length_filter_add_length_filter_not _ _
    · intro s
      constructor
      · intro hs
        rcases hms : skill_matches (strLower resume_text) (strLower s) with _ | _
        · exact Or.inr (List.mem_filter.mpr ⟨hs, by rw [hms]; rfl⟩)
        · exact Or.inl (List.mem_filter.mpr ⟨hs, hms⟩)
      · rintro (hs | hs) <;> exact (List.mem_filter.mp hs).1
    · rintro s ⟨h1, h2⟩
      have hb1 := (List.mem_filter.mp h1).2
      have hb2 := (List.mem_filter.mp h2).2
      rw [hb1] at hb2
      exact Bool.false_ne_true (by simpa using hb2.symm)

/-- C2 counterexample: with an injected non-negative weight triple that does
not sum to at most 1 (here all weights 1) and sub-scores 100 each,
`_calculate_overall_score` returns 300, outside [0,100] — so the claim as
stated over all non-negative injected weights is false. -/
theorem claim_C2_counterexample :
    ((0:ℚ) ≤ 1 ∧ (0:ℚ) ≤ 100 ∧ (100:ℚ) ≤ 100)
    ∧ calculate_overall_score_weighted 1 1 1 100 100 100 = 300
    ∧ ¬(calculate_overall_score_weighted 1 1 1 100 100 100 ≤ 100) := by
  have h : calculate_overall_score_weighted 1 1 1 100 100 100 = 300 := by
    unfold calculate_overall_score_weighted
    have h1 : ((100:ℚ) * 1 + 100 * 1 + 100 * 1) = ((300 : ℤ) : ℚ) := by norm_num
    rw [h1, round2_intCast]
    norm_num
  exact ⟨⟨by norm_num, by norm_num, le_refl _⟩, h, by rw [h]; norm_num⟩

/-- C2 (amended): for sub-scores in [0,100] and injected non-negative weights
that additionally sum to at most 1 (the shipped configuration 0.3/0.2/0.15
sums to 0.65), `_calculate_overall_score` is the rounded linear combination of
the three sub-scores and lies in [0,100]. -/
theorem claim_C2 (w1 w2 w3 s e c : ℚ)
    (hw1 : 0 ≤ w1) (hw2 : 0 ≤ w2) (hw3 : 0 ≤ w3) (hsum : w1 + w2 + w3 ≤ 1)
    (hs0 : 0 ≤ s) (hs1 : s ≤ 100) (he0 : 0 ≤ e) (he1 : e ≤ 100)
    (hc0 : 0 ≤ c) (hc1 : c ≤ 100) :
    calculate_overall_score_weighted w1 w2 w3 s e c = round2 (s * w1 + e * w2 + c * w3)
    ∧ 0 ≤ calculate_overall_score_weighted w1 w2 w3 s e c
    ∧ calculate_overall_score_weighted w1 w2 w3 s e c ≤ 100 := by
  refine ⟨rfl, ?_, ?_⟩
  · apply round2_nonneg
    positivity
  · apply round2_le_hundred
    have h1 : s * w1 ≤ 100 * w1 := mul_le_mul_of_nonneg_right hs1 hw1
    have h2 : e * w2 ≤ 100 * w2 := mul_le_mul_of_nonneg_right he1 hw2
    have h3 : c * w3 ≤ 100 * w3 := mul_le_mul_of_nonneg_right hc1 hw3
    linarith

theorem claim_C2_witness :
    calculate_overall_score_weighted (3/10) (1/5) (3/20) 100 100 100
      = round2 ((100:ℚ) * (3/10) + 100 * (1/5) + 100 * (3/20))
    ∧ 0 ≤ calculate_overall_score_weighted (3/10) (1/5) (3/20) 100 100 100
    ∧ calculate_overall_score_weighted (3/10) (1/5) (3/20) 100 100 100 ≤ 100 :=
  claim_C2 (3/10) (1/5) (3/20) 100 100 100 (by norm_num) (by norm_num) (by norm_num)
    (by norm_num) (by norm_num) (by norm_num) (by norm_num) (by norm_num)
    (by norm_num) (by norm_num)

/-- C4: the recommendation tiers of `_determine_recommendation` are closed on
the lower bound: `s ≥ 85` gives the Strongly-Recommend tier, `70 ≤ s < 85`
the Recommend tier, `55 ≤ s < 70` the Consider tier, `s < 55` the
Not-Recommended tier. -/
theorem claim_C4 (s : ℚ) :
    ((85:ℚ) ≤ s →
      determine_recommendation s = "Strongly Recommend - Move to Technical Assessment")
    ∧ ((70:ℚ) ≤ s ∧ s < 85 →
      determine_recommendation s = "Recommend - Move to HR Interview")
    ∧ ((55:ℚ) ≤ s ∧ s < 70 →
      determine_recommendation s = "Consider - Additional Screening Required")
    ∧ (s < 55 →
      determine_recommendation s = "Not Recommended - Does Not Meet Requirements") := by
  unfold determine_recommendation
  refine ⟨fun h => ?_, fun h => ?_, fun h => ?_, fun h => ?_⟩
  · rw [if_pos h]
  · rw [if_neg (by linarith [h.2]), if_pos h.1]
  · rw [if_neg (by linarith [h.2]), if_neg (by linarith [h.2]), if_pos h.1]
  · rw [if_neg (by linarith), if_neg (by linarith), if_neg (by linarith)]

/-- C4 witness: a score of exactly 85.00 yields the Strongly-Recommend tier
and 84.99 the Recommend tier. -/
theorem claim_C4_witness :
    determine_recommendation 85 = "Strongly Recommend - Move to Technical Assessment"
    ∧ determine_recommendation (8499/100) = "Recommend - Move to HR Interview" :=
  ⟨(claim_C4 85).1 (by norm_num),
   (claim_C4 (8499/100)).2.1 ⟨by norm_num, by norm_num⟩⟩

lemma parse_required_years_pos (required_level : String) :
    0 < parse_required_years required_level := by
  unfold parse_required_years
  split_ifs <;> norm_num

/-- The branchy experience score of `_evaluate_experience` collapses to a
clamped ratio. -/
lemma experience_score_raw {ry : ℚ} (hry : 0 < ry) (cy : ℚ) :
    (if ry ≤ cy then min 100 (cy / ry * 100) else max 0 (cy / ry * 100))
      = min 100 (max 0 (cy / ry * 100)) := by
  split_ifs with h
  · have h1 : (100:ℚ) ≤ cy / ry * 100 := by
      have h2 : (1:ℚ) ≤ cy / ry := (one_le_div hry).mpr h
      nlinarith
    rw [max_eq_right (le_trans (by norm_num : (0:ℚ) ≤ 100) h1)]
  · have h0 : cy / ry * 100 < 100 := by
      have h2 : cy / ry < 1 := (div_lt_one hry).mpr (lt_of_not_le h)
      nlinarith
    rw [min_eq_right (max_le (by norm_num) h0.le)]

/-- C9: for a fixed required experience level, the experience score is
monotonically non-decreasing in the candidate years, and equals exactly 100
when the candidate years equal the derived required years. -/
theorem claim_C9 (required_level : String) :
    (∀ y1 y2 : ℤ, y1 ≤ y2 →
      (evaluate_experience y1 required_level).score ≤
        (evaluate_experience y2 required_level).score)
    ∧ (∀ y : ℤ, (y : ℚ) = parse_required_years required_level →
      (evaluate_experience y required_level).score = 100) := by
  have hry := parse_required_years_pos required_level
  constructor
  · intro y1 y2 h
    simp only [evaluate_experience]
    apply round2_mono
    rw [experience_score_raw hry, experience_score_raw hry]
    have hc : (y1:ℚ) ≤ (y2:ℚ) := by exact_mod_cast h
    have hdiv : (y1:ℚ) / parse_required_years required_level * 100 ≤
        (y2:ℚ) / parse_required_years required_level * 100 := by
      have hd : (y1:ℚ) / parse_required_years required_level ≤
          (y2:ℚ) / parse_required_years required_level := by
        apply div_le_div_of_nonneg_right hc hry.le
      nlinarith
    exact min_le_min (le_refl _) (max_le_max (le_refl _) hdiv)
  · intro y hy
    simp only [evaluate_experience]
    rw [hy, if_pos (le_refl _), div_self (ne_of_gt hry), one_mul, min_self,
      round2_hundred]

/-- C9 witness at the level string containing "5+". -/
theorem claim_C9_witness :
    (evaluate_experience 2 "5+ years").score ≤ (evaluate_experience 3 "5+ years").score
    ∧ (evaluate_experience 5 "5+ years").score = 100 :=
  ⟨(claim_C9 "5+ years").1 2 3 (by norm_num),
   (claim_C9 "5+ years").2 5 (by
    have h : strContains "5+ years" "5+" = true := by decide
    simp [parse_required_years, h])⟩

/-! ## agents/interview_coordinator.py -/

/-- The fixed technical-position list of `_determine_interview_stages`. -/
def technical_positions : List String :=
  ["Software Engineer", "DevOps Engineer", "Data Analyst",
   "QA Engineer", "Cloud Architect", "Network Engineer"]

/-- Embedding of `InterviewCoordinator._determine_interview_stages` (the `department`
argument is unused in the source as well). -/
def determine_interview_stages (position department priority : String) :
    List String :=
  ["Initial Screening"]
    ++ (if technical_positions.contains position then ["Technical Assessment"] else [])
    ++ ["HR Interview"]
    ++ (if strContains position "Senior" || strContains position "Manager" ||
          priority = "High" then ["Final Round"] else [])
    ++ ["Reference Check"]

/-- Embedding of `InterviewCoordinator._get_stage_duration`. -/
def get_stage_duration (stage : String) : ℕ :=
  if stage = "Initial Screening" then 30
  else if stage = "Technical Assessment" then 60
  else if stage = "HR Interview" then 45
  else if stage = "Final Round" then 90
  else if stage = "Reference Check" then 20
  else 45

/-- Interview-schedule record (dates and the AI-generated stage questions are
produced by the scheduling clock and the external generation capability and
are omitted from the embedding). -/
structure InterviewSchedule where
  candidate_id : String
  position : String
  interview_stages : List String
  total_duration : ℕ
  status : String
deriving Repr, DecidableEq

/-- Embedding of `InterviewCoordinator.create_interview_schedule` (deterministic part). -/
def create_interview_schedule (cand : CandidateData) (job : JobRequirement) :
    InterviewSchedule :=
  let stages := determine_interview_stages job.position job.department job.priority
  { candidate_id := cand.candidate_id
    position := job.position
    interview_stages := stages
    total_duration := (stages.map get_stage_duration).sum
    status := "scheduled" }

/-- Per-stage interview-status record returned by
`InterviewCoordinator.update_interview_status` (the `updated_at` wall-clock
timestamp is omitted). -/
structure InterviewStatusRec where
  candidate_id : String
  stage : String
  status : String
  feedback : String
deriving Repr, DecidableEq

/-- Embedding of `InterviewCoordinator.update_interview_status`. -/
def update_interview_status (candidate_id stage status feedback : String) :
    InterviewStatusRec :=
  { candidate_id := candidate_id, stage := stage, status := status,
    feedback := feedback }

/-! ## recruitment_orchestrator.py -/

/-- Final-evaluation record built by `_evaluate_final_candidate`. -/
structure FinalEvaluation where
  final_score : ℚ
  interview_performance : List ℚ
  recommendation : String
deriving Repr, DecidableEq

/-- A stored candidate: the applicant data merged with the workflow fields the
orchestrator adds (`application_date` and `selection_date` are abstract
integer timestamps). -/
structure Candidate where
  candidate_id : String
  candidate_name : String
  position : String
  status : String
  screening_result : Option ScreeningResult
  interview_schedule : Option InterviewSchedule
  interview_status : List (String × InterviewStatusRec)
  final_evaluation : Option FinalEvaluation
  selection_notes : String
  application_date : ℤ
  selection_date : ℤ
deriving Repr, DecidableEq

/-- Hiring record appended to `final_selections` on a "hired" decision. -/
structure FinalSelectionRec where
  candidate_id : String
  candidate_name : String
  position : String
  notes : String
deriving Repr, DecidableEq

/-- The orchestrator's mutable workflow state. -/
structure OrchestratorState where
  job_openings : List JobRequirement
  candidates : List Candidate
  final_selections : List FinalSelectionRec
deriving Repr, DecidableEq

/-- The status/message pair every public operation returns. -/
structure OpResult where
  status : String
  message : String
deriving Repr, DecidableEq

/-- Python-dict insert-or-overwrite on an association list, preserving
insertion order (as Python dicts do). -/
def dictInsert {α : Type} (key : String) (v : α) :
    List (String × α) → List (String × α)
  | [] => [(key, v)]
  | (k, w) :: rest =>
    if k = key then (key, v) :: rest else (k, w) :: dictInsert key v rest

/-- Embedding of `RecruitmentOrchestrator._find_job_requirements` (case-insensitive
position-name match). -/
def find_job_requirements (job_position : String)
    (openings : List JobRequirement) : Option JobRequirement :=
  openings.find? (fun o => strLower o.position == strLower job_position)

/-- Embedding of `RecruitmentOrchestrator._find_candidate`. -/
def find_candidate (candidate_id : String) (candidates : List Candidate) :
    Option Candidate :=
  candidates.find? (fun c => c.candidate_id == candidate_id)

/-- In-place mutation of the first candidate with the given id (Python mutates
the found dict object inside the list). -/
def update_candidate (candidate_id : String) (f : Candidate → Candidate) :
    List Candidate → List Candidate
  | [] => []
  | c :: rest =>
    if c.candidate_id == candidate_id then f c :: rest
    else c :: update_candidate candidate_id f rest

/-- The screening-pass test of `process_candidate_application`:
`recommendation.startswith(("Strongly Recommend", "Recommend"))`. -/
def screening_passes (recommendation : String) : Bool :=
  strStartsWith recommendation "Strongly Recommend" ||
  strStartsWith recommendation "Recommend"

/-- The candidate record `process_candidate_application` appends: schedule
attached and status `interview_scheduled` when the recommendation passes the
prefix test, otherwise status `rejected` and no schedule. -/
def store_screened_candidate (cand : CandidateData) (job : JobRequirement)
    (screening_result : ScreeningResult) (now : ℤ) : Candidate :=
  if screening_passes screening_result.recommendation then
    { candidate_id := cand.candidate_id
      candidate_name := cand.candidate_name
      position := cand.position
      status := "interview_scheduled"
      screening_result := some screening_result
      interview_schedule := some (create_interview_schedule cand job)
      interview_status := []
      final_evaluation := none
      selection_notes := ""
      application_date := now
      selection_date := now }
  else
    { candidate_id := cand.candidate_id
      candidate_name := cand.candidate_name
      position := cand.position
      status := "rejected"
      screening_result := some screening_result
      interview_schedule := none
      interview_status := []
      final_evaluation := none
      selection_notes := ""
      application_date := now
      selection_date := now }

/-- Embedding of `RecruitmentOrchestrator.process_candidate_application`. -/
def process_candidate_application (st : OrchestratorState)
    (cand : CandidateData) (job_position : String) (now : ℤ) :
    OrchestratorState × OpResult :=
  match find_job_requirements job_position st.job_openings with
  | none =>
    (st, { status := "error",
           message := "Job position " ++ job_position ++ " not found" })
  | some job =>
    let screening_result := screen_candidate cand job
    let stored := store_screened_candidate cand job screening_result now
    ({ st with candidates := st.candidates ++ [stored] },
     { status := "success",
       message :=
         if screening_passes screening_result.recommendation then
           "Candidate passed screening and interview scheduled"
         else
           "Candidate screened but did not meet requirements" })

/-- Embedding of `RecruitmentOrchestrator._all_interviews_completed`: completion is decided
by comparing the count of completed stages with the count of required stages. -/
def all_interviews_completed (c : Candidate) : Bool :=
  match c.interview_schedule with
  | none => false
  | some sched =>
    let completed := (c.interview_status.filter
      (fun p => p.2.status == "completed")).map Prod.fst
    completed.length == sched.interview_stages.length

/-- The per-stage interview score of `_evaluate_final_candidate`:
`min(100, wordCount(feedback) * 2)`. -/
def interview_stage_score (rec : InterviewStatusRec) : ℚ :=
  ((min 100 (wordCount rec.feedback * 2) : ℕ) : ℚ)

/-- Embedding of `RecruitmentOrchestrator._get_final_recommendation`. -/
def get_final_recommendation (final_score : ℚ) : String :=
  if (80:ℚ) ≤ final_score then "Strongly Recommend Hiring"
  else if (70:ℚ) ≤ final_score then "Recommend Hiring"
  else if (60:ℚ) ≤ final_score then "Consider Hiring"
  else "Do Not Recommend Hiring"

/-- Embedding of `RecruitmentOrchestrator._evaluate_final_candidate`: blends the screening
overall score with the feedback-length-derived interview scores (the stored
final score is rounded to two decimals; the recommendation is derived from the
unrounded blend, as in the source). -/
def evaluate_final_candidate (c : Candidate) : FinalEvaluation :=
  let base : ℚ := ((c.screening_result.map ScreeningResult.overall_score).getD 0)
  let interview_scores := (c.interview_status.filter
    (fun p => p.2.status == "completed")).map (fun p => interview_stage_score p.2)
  let final_score : ℚ :=
    if interview_scores = [] then base
    else base * (6/10) + (interview_scores.sum / (interview_scores.length : ℚ)) * (4/10)
  { final_score := round2 final_score
    interview_performance := interview_scores
    recommendation := get_final_recommendation final_score }

/-- The effect of `conduct_interview` on the found candidate: record the
completed stage, then transition to `all_interviews_completed` with a final
evaluation when the count check passes. -/
def conduct_interview_on (stage feedback : String) (c : Candidate) : Candidate :=
  let status_update := update_interview_status c.candidate_id stage "completed" feedback
  let c1 := { c with interview_status := dictInsert stage status_update c.interview_status }
  if all_interviews_completed c1 then
    { c1 with status := "all_interviews_completed",
              final_evaluation := some (evaluate_final_candidate c1) }
  else c1

/-- Embedding of `RecruitmentOrchestrator.conduct_interview`. -/
def conduct_interview (st : OrchestratorState)
    (candidate_id stage feedback : String) : OrchestratorState × OpResult :=
  match find_candidate candidate_id st.candidates with
  | none =>
    (st, { status := "error",
           message := "Candidate with ID " ++ candidate_id ++ " not found" })
  | some _ =>
    ({ st with candidates :=
        update_candidate candidate_id (conduct_interview_on stage feedback) st.candidates },
     { status := "success",
       message := "Interview stage " ++ stage ++ " completed" })

/-- Embedding of `RecruitmentOrchestrator.make_final_selection`: unconditionally overwrites
the candidate status with the decision and appends a hiring record when the
decision is "hired". -/
def make_final_selection (st : OrchestratorState)
    (candidate_id decision notes : String) (now : ℤ) :
    OrchestratorState × OpResult :=
  match find_candidate candidate_id st.candidates with
  | none =>
    (st, { status := "error",
           message := "Candidate with ID " ++ candidate_id ++ " not found" })
  | some cand =>
    let candidates := update_candidate candidate_id
      (fun c => { c with status := decision, selection_notes := notes,
                         selection_date := now }) st.candidates
    let final_selections :=
      if decision == "hired" then
        st.final_selections ++
          [{ candidate_id := candidate_id, candidate_name := cand.candidate_name,
             position := cand.position, notes := notes }]
      else st.final_selections
    ({ st with candidates := candidates, final_selections := final_selections },
     { status := "success", message := "Final selection made: " ++ decision })

/-- Embedding of `RecruitmentOrchestrator._calculate_interview_completion_rate`. -/
def calculate_interview_completion_rate (st : OrchestratorState) : ℚ :=
  if st.candidates = [] then 0
  else
    let completed := st.candidates.countP
      (fun c => c.status == "all_interviews_completed" || c.status == "hired")
    round2 (((completed : ℚ) / (st.candidates.length : ℚ)) * 100)

/-- Embedding of `RecruitmentOrchestrator._calculate_hiring_success_rate`. -/
def calculate_hiring_success_rate (st : OrchestratorState) : ℚ :=
  if st.candidates = [] then 0
  else
    let hired := st.candidates.countP (fun c => c.status == "hired")
    round2 (((hired : ℚ) / (st.candidates.length : ℚ)) * 100)

/-- Rendering of `f"{average_days:.1f} days"` (one decimal place). -/
def format_days (q : ℚ) : String :=
  let t : ℤ := round (q * 10)
  toString (t / 10) ++ "." ++ toString ((t % 10).natAbs) ++ " days"

/-- Embedding of `RecruitmentOrchestrator._calculate_average_time_to_hire`: "N/A" when no
candidate is hired, otherwise the mean of `selection_date - application_date`
in days over hired candidates. -/
def calculate_average_time_to_hire (st : OrchestratorState) : String :=
  let hired := st.candidates.filter (fun c => c.status == "hired")
  if hired = [] then "N/A"
  else
    let total : ℤ := (hired.map (fun c => c.selection_date - c.application_date)).sum
    format_days ((total : ℚ) / (hired.length : ℚ))

/-! ## Sub-score bounds and the shipped-weight cap -/

lemma avg_bounds (l : List ℚ) (hne : l ≠ []) (h : ∀ x ∈ l, 0 ≤ x ∧ x ≤ 100) :
    0 ≤ l.sum / (l.length : ℚ) ∧ l.sum / (l.length : ℚ) ≤ 100 := by
  have hlen : 0 < (l.length : ℚ) := by
    have h1 := List.length_pos.mpr hne
    exact_mod_cast h1
  constructor
  · exact div_nonneg (List.sum_nonneg (fun x hx => (h x hx).1)) hlen.le
  · rw [div_le_iff₀ hlen]
    have h2 := List.sum_le_card_nsmul l 100 (fun x hx => (h x hx).2)
    rw [nsmul_eq_mul] at h2
    linarith

lemma skill_score_bounds (resume_text : String) (required_skills : List String) :
    0 ≤ (analyze_skill_match resume_text required_skills).score ∧
    (analyze_skill_match resume_text required_skills).score ≤ 100 := by
  by_cases h : resume_text = "" ∨ required_skills = []
  · simp only [analyze_skill_match, if_pos h]
    norm_num
  · simp only [analyze_skill_match, if_neg h]
    have hne : required_skills ≠ [] := fun hn => h (Or.inr hn)
    have hN : 0 < (required_skills.length : ℚ) := by
      have h1 := List.length_pos.mpr hne
      exact_mod_cast h1
    constructor
    · apply round2_nonneg
      positivity
    · apply round2_le_hundred
      have hm : ((required_skills.filter
          (fun skill => skill_matches (strLower resume_text) (strLower skill))).length : ℚ) ≤
          (required_skills.length : ℚ) := by
        exact_mod_cast List.length_filter_le _ _
      have hd : ((required_skills.filter
          (fun skill => skill_matches (strLower resume_text) (strLower skill))).length : ℚ) /
          (required_skills.length : ℚ) ≤ 1 := (div_le_one hN).mpr hm
      nlinarith

lemma experience_score_bounds (candidate_years : ℤ) (required_level : String) :
    0 ≤ (evaluate_experience candidate_years required_level).score ∧
    (evaluate_experience candidate_years required_level).score ≤ 100 := by
  have hry := parse_required_years_pos required_level
  simp only [evaluate_experience]
  rw [experience_score_raw hry]
  constructor
  · exact round2_nonneg (le_min (by norm_num) (le_max_left _ _))
  · exact round2_le_hundred (min_le_left _ _)

lemma cultural_score_bounds (cover_letter resume_text department : String) :
    0 ≤ (assess_cultural_fit cover_letter resume_text department).score ∧
    (assess_cultural_fit cover_letter resume_text department).score ≤ 100 := by
  simp only [assess_cultural_fit]
  have hmem : ∀ x ∈ (cultural_indicators.map (fun p =>
      (p.1, (min 100 ((p.2.countP (fun kw =>
        strContains (strLower (cover_letter ++ " " ++ resume_text)) kw)) * 20) : ℕ)))).map
      (fun p => ((p.2 : ℕ) : ℚ)), 0 ≤ x ∧ x ≤ 100 := by
    intro x hx
    rcases List.mem_map.mp hx with ⟨p, hp, rfl⟩
    rcases List.mem_map.mp hp with ⟨q, _, rfl⟩
    refine ⟨by positivity, ?_⟩
    exact_mod_cast min_le_left 100 _
  have hne : (cultural_indicators.map (fun p =>
      (p.1, (min 100 ((p.2.countP (fun kw =>
        strContains (strLower (cover_letter ++ " " ++ resume_text)) kw)) * 20) : ℕ)))).map
      (fun p => ((p.2 : ℕ) : ℚ)) ≠ [] := by
    simp [cultural_indicators]
  have hb := avg_bounds _ hne hmem
  rw [List.length_map] at hb
  exact ⟨round2_nonneg hb.1, round2_le_hundred hb.2⟩

lemma eval_crit_tech : EVALUATION_CRITERIA "Technical Skills" = 3/10 := rfl

lemma eval_crit_exp : EVALUATION_CRITERIA "Experience" = 1/5 := rfl

lemma eval_crit_cult : EVALUATION_CRITERIA "Cultural Fit" = 3/20 := rfl

/-- Under the shipped weights, the screening overall score can never reach 70:
it is bounded by 0.3·100 + 0.2·100 + 0.15·100 = 65. -/
lemma screen_overall_bounds (cand : CandidateData) (job : JobRequirement) :
    0 ≤ (screen_candidate cand job).overall_score ∧
    (screen_candidate cand job).overall_score ≤ 65 := by
  obtain ⟨hs0, hs1⟩ := skill_score_bounds cand.resume_text job.required_skills
  obtain ⟨he0, he1⟩ := experience_score_bounds cand.experience_years job.experience_level
  obtain ⟨hc0, hc1⟩ := cultural_score_bounds cand.cover_letter cand.resume_text job.department
  show 0 ≤ calculate_overall_score _ _ _ ∧ calculate_overall_score _ _ _ ≤ 65
  unfold calculate_overall_score calculate_overall_score_weighted
  rw [eval_crit_tech, eval_crit_exp, eval_crit_cult]
  constructor
  · apply round2_nonneg
    have h1 : 0 ≤ (analyze_skill_match cand.resume_text job.required_skills).score * (3/10) :=
      mul_nonneg hs0 (by norm_num)
    have h2 : 0 ≤ (evaluate_experience cand.experience_years job.experience_level).score * (1/5) :=
      mul_nonneg he0 (by norm_num)
    have h3 : 0 ≤ (assess_cultural_fit cand.cover_letter cand.resume_text job.department).score * (3/20) :=
      mul_nonneg hc0 (by norm_num)
    linarith
  · have h65 := round2_le_int (n := 65) (q :=
      (analyze_skill_match cand.resume_text job.required_skills).score * (3/10) +
      (evaluate_experience cand.experience_years job.experience_level).score * (1/5) +
      (assess_cultural_fit cand.cover_letter cand.resume_text job.department).score * (3/20))
      (by push_cast; linarith)
    simpa using h65

/-- The recommendation produced from any score at most 65 fails the
string-prefix screening test. -/
lemma screening_passes_le_65 (ov : ℚ) (h : ov ≤ 65) :
    screening_passes (determine_recommendation ov) = false := by
  unfold determine_recommendation
  rw [if_neg (by linarith), if_neg (by linarith)]
  split_ifs <;> decide

/-- C3: with the shipped weight configuration every screening overall score is
at most 65, the recommendation therefore never starts with "Strongly
Recommend" or "Recommend", and `process_candidate_application` stores every
newly screened candidate as "rejected" with no interview schedule. -/
theorem claim_C3 (cand : CandidateData) (job : JobRequirement) :
    (screen_candidate cand job).overall_score ≤ 65
    ∧ screening_passes (screen_candidate cand job).recommendation = false
    ∧ (∀ (st : OrchestratorState) (job_position : String) (now : ℤ) (c : Candidate),
        c ∈ (process_candidate_application st cand job_position now).1.candidates →
        c ∈ st.candidates ∨ (c.status = "rejected" ∧ c.interview_schedule = none)) := by
  refine ⟨(screen_overall_bounds cand job).2, ?_, ?_⟩
  · have hrec : (screen_candidate cand job).recommendation =
        determine_recommendation ((screen_candidate cand job).overall_score) := rfl
    rw [hrec]
    exact screening_passes_le_65 _ (screen_overall_bounds cand job).2
  · intro st job_position now c hc
    rcases hfind : find_job_requirements job_position st.job_openings with _ | job2
    · rw [process_candidate_application, hfind] at hc
      exact Or.inl hc
    · rw [process_candidate_application, hfind] at hc
      simp only [List.mem_append, List.mem_singleton] at hc
      rcases hc with hc | hc
      · exact Or.inl hc
      · right
        have hrec2 : (screen_candidate cand job2).recommendation =
            determine_recommendation ((screen_candidate cand job2).overall_score) := rfl
        have hfail : screening_passes (screen_candidate cand job2).recommendation = false := by
          rw [hrec2]
          exact screening_passes_le_65 _ (screen_overall_bounds cand job2).2
        subst hc
        constructor <;> simp [store_screened_candidate, hfail]

/-! ## Sample values used to instantiate hypotheses of the proved theorems -/

def sampleCandidateData : CandidateData :=
  { candidate_id := "c1", candidate_name := "Alice", position := "QA Engineer",
    resume_text := "team player with python", cover_letter := "", experience_years := 3 }

def sampleJob : JobRequirement :=
  { position := "QA Engineer", department := "Engineering",
    required_skills := ["Python", "SQL"], experience_level := "2-5 years",
    priority := "Normal" }

def sampleRejected : Candidate :=
  { candidate_id := "c1", candidate_name := "Alice", position := "QA Engineer",
    status := "rejected", screening_result := none, interview_schedule := none,
    interview_status := [], final_evaluation := none, selection_notes := "",
    application_date := 0, selection_date := 0 }

def sampleHired : Candidate :=
  { candidate_id := "c1", candidate_name := "Alice", position := "QA Engineer",
    status := "hired", screening_result := none, interview_schedule := none,
    interview_status := [], final_evaluation := none, selection_notes := "",
    application_date := 0, selection_date := 0 }

def sampleScreening : ScreeningResult :=
  { candidate_id := "c1", overall_score := 0, skill_match_score := 0,
    experience_match_score := 0, cultural_fit_score := 0,
    recommendation := "Recommend - Move to HR Interview",
    skill_analysis := { score := 0, matched_skills := [], missing_skills := [] },
    experience_analysis := { score := 0, candidate_years := 0, required_years := 1,
                             assessment := "", experience_gap := 0 },
    cultural_fit_analysis := { score := 0, category_scores := [], assessment := "" },
    screening_status := "completed" }

theorem claim_C3_witness :
    sampleRejected ∈ (⟨[], [sampleRejected], []⟩ : OrchestratorState).candidates
    ∨ (sampleRejected.status = "rejected" ∧ sampleRejected.interview_schedule = none) :=
  (claim_C3 sampleCandidateData sampleJob).2.2 ⟨[], [sampleRejected], []⟩ "Engineer" 0
    sampleRejected (by simp [process_candidate_application, find_job_requirements])

/-- C5: a screened candidate is stored with an interview schedule and status
`interview_scheduled` exactly when the recommendation string passes the
"Strongly Recommend"/"Recommend" prefix test (a string test, not a numeric
re-check); otherwise it is stored as `rejected` without a schedule; and on a
found job position, `process_candidate_application` appends exactly that
stored record. -/
theorem claim_C5 (cand : CandidateData) (job : JobRequirement)
    (r : ScreeningResult) (now : ℤ) :
    (screening_passes r.recommendation = true →
      (store_screened_candidate cand job r now).status = "interview_scheduled" ∧
      (store_screened_candidate cand job r now).interview_schedule =
        some (create_interview_schedule cand job))
    ∧ (screening_passes r.recommendation = false →
      (store_screened_candidate cand job r now).status = "rejected" ∧
      (store_screened_candidate cand job r now).interview_schedule = none)
    ∧ screening_passes r.recommendation =
        (strStartsWith r.recommendation "Strongly Recommend" ||
         strStartsWith r.recommendation "Recommend")
    ∧ (∀ (st : OrchestratorState) (job_position : String),
        find_job_requirements job_position st.job_openings = some job →
        (process_candidate_application st cand job_position now).1.candidates =
          st.candidates ++ [store_screened_candidate cand job (screen_candidate cand job) now]) := by
  refine ⟨fun h => ?_, fun h => ?_, rfl, fun st job_position hfind => ?_⟩
  · constructor <;> simp [store_screened_candidate, h]
  · constructor <;> simp [store_screened_candidate, h]
  · rw [process_candidate_application, hfind]

theorem claim_C5_witness :
    (store_screened_candidate sampleCandidateData sampleJob sampleScreening 0).status =
      "interview_scheduled"
    ∧ (store_screened_candidate sampleCandidateData sampleJob sampleScreening 0).interview_schedule =
      some (create_interview_schedule sampleCandidateData sampleJob) :=
  (claim_C5 sampleCandidateData sampleJob sampleScreening 0).1 (by decide)

/-- C7 counterexample: a candidate whose status is the terminal "hired" has it
overwritten to "not_hired" by a later `make_final_selection` call, so terminal
decisions are not final on the code. -/
theorem claim_C7_counterexample :
    sampleHired.status = "hired"
    ∧ ((make_final_selection ⟨[], [sampleHired], []⟩ "c1" "not_hired" "n" 1).1.candidates.map
        Candidate.status) = ["not_hired"]
    ∧ ("not_hired" : String) ≠ "hired" := by
  refine ⟨rfl, rfl, by decide⟩

lemma find_candidate_update_candidate (cid : String) (f : Candidate → Candidate)
    (hf : ∀ c, (f c).candidate_id = c.candidate_id) (l : List Candidate) :
    find_candidate cid (update_candidate cid f l) = (find_candidate cid l).map f := by
  induction l with
  | nil => rfl
  | cons c t ih =>
    by_cases h : c.candidate_id = cid
    · rw [update_candidate, if_pos (by simpa using h)]
      rw [find_candidate, List.find?_cons_of_pos _ (by simp [hf, h])]
      rw [find_candidate, List.find?_cons_of_pos _ (by simp [h])]
      rfl
    · rw [update_candidate, if_neg (by simpa using h)]
      rw [find_candidate, List.find?_cons_of_neg _ (by simp [h])]
      rw [find_candidate, List.find?_cons_of_neg _ (by simp [h])]
      exact ih

/-- C7 (amended): terminal statuses are not protected — `make_final_selection`
unconditionally overwrites the found candidate's status with the supplied
decision (whatever the current status, including the terminal ones), so a
terminal decision is only "final" if no later operation touches the
candidate. -/
theorem claim_C7 (st : OrchestratorState) (cid decision notes : String) (now : ℤ)
    (c : Candidate) (h : find_candidate cid st.candidates = some c) :
    find_candidate cid (make_final_selection st cid decision notes now).1.candidates =
      some { c with status := decision, selection_notes := notes, selection_date := now } := by
  rw [make_final_selection, h]
  simp only
  rw [find_candidate_update_candidate cid
    (fun c => { c with status := decision, selection_notes := notes, selection_date := now })
    (fun c => rfl) st.candidates, h]
  rfl

theorem claim_C7_witness :
    find_candidate "c1"
        (make_final_selection ⟨[], [sampleHired], []⟩ "c1" "not_hired" "n" 2).1.candidates =
      some { sampleHired with status := "not_hired", selection_notes := "n", selection_date := 2 } :=
  claim_C7 ⟨[], [sampleHired], []⟩ "c1" "not_hired" "n" 2 sampleHired rfl

/-- C8: `conduct_interview` on an id absent from the candidate collection
returns the error-tagged not-found result and leaves the whole state (the
candidate list, interview statuses and selections) unchanged. -/
theorem claim_C8 (st : OrchestratorState) (candidate_id stage feedback : String)
    (h : ∀ c ∈ st.candidates, c.candidate_id ≠ candidate_id) :
    conduct_interview st candidate_id stage feedback =
      (st, { status := "error",
             message := "Candidate with ID " ++ candidate_id ++ " not found" }) := by
  have hfind : find_candidate candidate_id st.candidates = none := by
    apply List.find?_eq_none.mpr
    intro c hc
    simpa using h c hc
  rw [conduct_interview, hfind]

theorem claim_C8_witness :
    conduct_interview ⟨[], [], []⟩ "c9" "HR Interview" "fine" =
      (⟨[], [], []⟩, { status := "error",
                       message := "Candidate with ID c9 not found" }) :=
  claim_C8 ⟨[], [], []⟩ "c9" "HR Interview" "fine" (by simp)

/-- C10: on an empty candidate collection the summary rates are all 0 and the
average time-to-hire is the string "N/A"; no division is reached. -/
theorem claim_C10 (st : OrchestratorState) (h : st.candidates = []) :
    calculate_interview_completion_rate st = 0
    ∧ calculate_hiring_success_rate st = 0
    ∧ calculate_average_time_to_hire st = "N/A" := by
  refine ⟨?_, ?_, ?_⟩ <;>
    simp [calculate_interview_completion_rate, calculate_hiring_success_rate,
      calculate_average_time_to_hire, h]

theorem claim_C10_witness :
    calculate_interview_completion_rate ⟨[], [], []⟩ = 0
    ∧ calculate_hiring_success_rate ⟨[], [], []⟩ = 0
    ∧ calculate_average_time_to_hire ⟨[], [], []⟩ = "N/A" :=
  claim_C10 ⟨[], [], []⟩ rfl

/-! ## Running a full interview schedule (claim C6 machinery) -/

/-- Iterating the per-candidate effect of `conduct_interview` over a list of
(stage, feedback) calls. -/
def run_interviews (c : Candidate) (calls : List (String × String)) : Candidate :=
  calls.foldl (fun acc call => conduct_interview_on call.1 call.2 acc) c

/-- Iterating `conduct_interview` itself over a list of (stage, feedback)
calls against the orchestrator state. -/
def run_interviews_state (st : OrchestratorState) (cid : String)
    (calls : List (String × String)) : OrchestratorState :=
  calls.foldl (fun s call => (conduct_interview s cid call.1 call.2).1) st

/-- The interview-status entry that one `conduct_interview` call records. -/
def mkStageRec (cid : String) (p : String × String) : String × InterviewStatusRec :=
  (p.1, update_interview_status cid p.1 "completed" p.2)

/-- The candidate after some calls have been recorded but before any
completion transition fires. -/
def midCandidate (c0 : Candidate) (pre : List (String × String)) : Candidate :=
  { c0 with interview_status := pre.map (mkStageRec c0.candidate_id) }

lemma run_interviews_append (c : Candidate) (calls : List (String × String))
    (x : String × String) :
    run_interviews c (calls ++ [x]) =
      conduct_interview_on x.1 x.2 (run_interviews c calls) := by
  unfold run_interviews
  rw [List.foldl_append]
  rfl

lemma dictInsert_fresh {α : Type} (key : String) (v : α) :
    ∀ l : List (String × α), key ∉ l.map Prod.fst →
      dictInsert key v l = l ++ [(key, v)]
  | [], _ => rfl
  | (k, w) :: t, h => by
    have hk : ¬(k = key) := by
      intro he
      exact h (by simp [he])
    rw [dictInsert, if_neg hk,
      dictInsert_fresh key v t (fun hm => h (by simp [hm]))]
    rfl

lemma map_fst_mkStageRec (cid : String) (l : List (String × String)) :
    (l.map (mkStageRec cid)).map Prod.fst = l.map Prod.fst := by
  simp [mkStageRec]

lemma completed_filter_mk (cid : String) (l : List (String × String)) :
    (l.map (mkStageRec cid)).filter (fun p => p.2.status == "completed") =
      l.map (mkStageRec cid) := by
  apply List.filter_eq_self.mpr
  intro p hp
  rcases List.mem_map.mp hp with ⟨q, _, rfl⟩
  rfl

/-- The stage-recording step inside `conduct_interview`. -/
def recordStage (stage feedback : String) (c : Candidate) : Candidate :=
  let status_update := update_interview_status c.candidate_id stage "completed" feedback
  { c with interview_status := dictInsert stage status_update c.interview_status }

/-- The completion transition inside `conduct_interview`. -/
def completeCandidate (c : Candidate) : Candidate :=
  { c with status := "all_interviews_completed",
           final_evaluation := some (evaluate_final_candidate c) }

lemma conduct_interview_on_eq (stage feedback : String) (c : Candidate) :
    conduct_interview_on stage feedback c =
      if all_interviews_completed (recordStage stage feedback c) then
        completeCandidate (recordStage stage feedback c)
      else recordStage stage feedback c := rfl

lemma recordStage_mid (c0 : Candidate)
    (pre : List (String × String)) (x : String × String)
    (hfresh : x.1 ∉ pre.map Prod.fst) :
    recordStage x.1 x.2 (midCandidate c0 pre) = midCandidate c0 (pre ++ [x]) := by
  show ({ midCandidate c0 pre with
      interview_status := dictInsert x.1
        (update_interview_status c0.candidate_id x.1 "completed" x.2)
        (pre.map (mkStageRec c0.candidate_id)) } : Candidate) =
    midCandidate c0 (pre ++ [x])
  rw [dictInsert_fresh x.1 _ (pre.map (mkStageRec c0.candidate_id))
    (by rw [map_fst_mkStageRec]; exact hfresh)]
  show ({ midCandidate c0 pre with
      interview_status := pre.map (mkStageRec c0.candidate_id) ++
        [(x.1, update_interview_status c0.candidate_id x.1 "completed" x.2)] } : Candidate) = _
  have hmap : pre.map (mkStageRec c0.candidate_id) ++
      [(x.1, update_interview_status c0.candidate_id x.1 "completed" x.2)] =
      (pre ++ [x]).map (mkStageRec c0.candidate_id) := by
    simp [mkStageRec, update_interview_status]
  rw [hmap]
  rfl

lemma all_completed_mid (c0 : Candidate) (sched : InterviewSchedule)
    (hsched : c0.interview_schedule = some sched) (l : List (String × String)) :
    all_interviews_completed (midCandidate c0 l) =
      (l.length == sched.interview_stages.length) := by
  have h5 : (midCandidate c0 l).interview_schedule = some sched := hsched
  unfold all_interviews_completed
  rw [h5]
  have h6 : (midCandidate c0 l).interview_status =
      l.map (mkStageRec c0.candidate_id) := rfl
  rw [h6, completed_filter_mk]
  simp

/-- One `conduct_interview` call on a mid-run candidate: record the stage,
then fire the count-based completion check. -/
lemma conduct_mid (c0 : Candidate) (sched : InterviewSchedule)
    (hsched : c0.interview_schedule = some sched)
    (pre : List (String × String)) (x : String × String)
    (hfresh : x.1 ∉ pre.map Prod.fst) :
    conduct_interview_on x.1 x.2 (midCandidate c0 pre) =
      if pre.length + 1 = sched.interview_stages.length then
        completeCandidate (midCandidate c0 (pre ++ [x]))
      else midCandidate c0 (pre ++ [x]) := by
  rw [conduct_interview_on_eq, recordStage_mid c0 pre x hfresh,
    all_completed_mid c0 sched hsched]
  have hlen : (pre ++ [x]).length = pre.length + 1 := by simp
  by_cases hc : pre.length + 1 = sched.interview_stages.length
  · have hb : ((pre ++ [x]).length == sched.interview_stages.length) = true := by
      simp [hlen, hc]
    rw [hb, if_pos rfl, if_pos hc]
  · have hb : ((pre ++ [x]).length == sched.interview_stages.length) = false := by
      simp [hlen, hc]
    rw [hb, if_neg (by simp), if_neg hc]

lemma fresh_of_pre (calls : List (String × String)) (S : List String)
    (hS : calls.map Prod.fst = S) (hnd : S.Nodup) (pre : List (String × String))
    (x : String × String) (hpre : pre ++ [x] <+: calls) :
    x.1 ∉ pre.map Prod.fst := by
  have h1 : (pre ++ [x]).map Prod.fst <+: S := by
    rw [← hS]
    exact hpre.map Prod.fst
  have h3 : (pre ++ [x]).map Prod.fst = pre.map Prod.fst ++ [x.1] := by simp
  rw [h3] at h1
  have h2 : (pre.map Prod.fst ++ [x.1]).Nodup := List.Nodup.sublist h1.sublist hnd
  rw [List.nodup_append] at h2
  intro hm
  exact h2.2.2 hm (List.mem_singleton_self x.1)

/-- Running any proper initial segment of the calls only accumulates
interview-status entries; status and final evaluation are untouched. -/
lemma run_interviews_proper (c0 : Candidate) (sched : InterviewSchedule)
    (hsched : c0.interview_schedule = some sched)
    (hstat0 : c0.interview_status = [])
    (calls : List (String × String))
    (hS : calls.map Prod.fst = sched.interview_stages)
    (hnd : sched.interview_stages.Nodup) :
    ∀ pre, pre <+: calls → pre.length < sched.interview_stages.length →
      run_interviews c0 pre = midCandidate c0 pre := by
  intro pre
  induction pre using List.reverseRecOn with
  | nil =>
    intro _ _
    have h : midCandidate c0 [] = c0 := by
      unfold midCandidate
      rw [List.map_nil, ← hstat0]
    rw [h]
    rfl
  | append_singleton pre x ih =>
    intro hpre hlen
    have hpre2 : pre <+: calls := (List.prefix_append pre [x]).trans hpre
    have hlen2 : pre.length < sched.interview_stages.length := by
      rw [List.length_append, List.length_singleton] at hlen
      omega
    rw [run_interviews_append, ih hpre2 hlen2,
      conduct_mid c0 sched hsched pre x
        (fresh_of_pre calls sched.interview_stages hS hnd pre x hpre)]
    rw [if_neg (by
      rw [List.length_append, List.length_singleton] at hlen
      omega)]

/-- Running the complete call list fires the completion transition on the
last call. -/
lemma run_interviews_full (c0 : Candidate) (sched : InterviewSchedule)
    (hsched : c0.interview_schedule = some sched)
    (hstat0 : c0.interview_status = [])
    (calls : List (String × String))
    (hS : calls.map Prod.fst = sched.interview_stages)
    (hnd : sched.interview_stages.Nodup)
    (hne : calls ≠ []) :
    run_interviews c0 calls = completeCandidate (midCandidate c0 calls) := by
  obtain ⟨pre, x, rfl⟩ : ∃ pre x, calls = pre ++ [x] := by
    rcases List.eq_nil_or_concat calls with h | ⟨pre, x, h⟩
    · exact absurd h hne
    · exact ⟨pre, x, by simpa [List.concat_eq_append] using h⟩
  have hlenS : (pre ++ [x]).length = sched.interview_stages.length := by
    rw [← hS, List.length_map]
  have hlen2 : pre.length < sched.interview_stages.length := by
    rw [List.length_append, List.length_singleton] at hlenS
    omega
  rw [run_interviews_append,
    run_interviews_proper c0 sched hsched hstat0 (pre ++ [x]) hS hnd pre
      (List.prefix_append pre [x]) hlen2,
    conduct_mid c0 sched hsched pre x
      (fresh_of_pre (pre ++ [x]) sched.interview_stages hS hnd pre x
        (List.prefix_refl _))]
  rw [if_pos (by
    rw [List.length_append, List.length_singleton] at hlenS
    omega)]

/-- The final evaluation computed over a fully recorded call list. -/
lemma evaluate_final_mid (c0 : Candidate) (sr : ScreeningResult)
    (hsr : c0.screening_result = some sr)
    (calls : List (String × String)) (hne : calls ≠ []) :
    evaluate_final_candidate (midCandidate c0 calls) =
      { final_score := round2 (sr.overall_score * (6/10) +
          (((calls.map (fun p => ((min 100 (wordCount p.2 * 2) : ℕ) : ℚ))).sum) /
            ((calls.length : ℚ))) * (4/10))
        interview_performance :=
          calls.map (fun p => ((min 100 (wordCount p.2 * 2) : ℕ) : ℚ))
        recommendation := get_final_recommendation (sr.overall_score * (6/10) +
          (((calls.map (fun p => ((min 100 (wordCount p.2 * 2) : ℕ) : ℚ))).sum) /
            ((calls.length : ℚ))) * (4/10)) } := by
  have h1 : (midCandidate c0 calls).screening_result = some sr := hsr
  have h2 : (midCandidate c0 calls).interview_status =
      calls.map (mkStageRec c0.candidate_id) := rfl
  simp only [evaluate_final_candidate]
  rw [h1, h2, completed_filter_mk]
  have h3 : (calls.map (mkStageRec c0.candidate_id)).map
      (fun p => interview_stage_score p.2) =
      calls.map (fun p => ((min 100 (wordCount p.2 * 2) : ℕ) : ℚ)) := by
    rw [List.map_map]
    apply List.map_congr_left
    intro q _
    rfl
  rw [h3]
  have h4 : calls.map (fun p => ((min 100 (wordCount p.2 * 2) : ℕ) : ℚ)) ≠ [] := by
    simpa using hne
  rw [if_neg h4]
  simp [List.length_map]

lemma conduct_interview_on_id (stage feedback : String) (c : Candidate) :
    (conduct_interview_on stage feedback c).candidate_id = c.candidate_id := by
  rw [conduct_interview_on_eq]
  split_ifs <;> rfl

/-- Running `conduct_interview` against a singleton candidate list applies the
per-candidate effect in place. -/
lemma run_state_singleton (jo : List JobRequirement) (fs : List FinalSelectionRec)
    (cid : String) (calls : List (String × String)) :
    ∀ c : Candidate, c.candidate_id = cid →
      run_interviews_state ⟨jo, [c], fs⟩ cid calls = ⟨jo, [run_interviews c calls], fs⟩ := by
  induction calls with
  | nil => intro c _; rfl
  | cons x t ih =>
    intro c h
    have hstep : (conduct_interview ⟨jo, [c], fs⟩ cid x.1 x.2).1 =
        ⟨jo, [conduct_interview_on x.1 x.2 c], fs⟩ := by
      unfold conduct_interview find_candidate update_candidate
      simp [h]
    have hid : (conduct_interview_on x.1 x.2 c).candidate_id = cid := by
      rw [conduct_interview_on_id, h]
    have hrec := ih (conduct_interview_on x.1 x.2 c) hid
    show run_interviews_state (conduct_interview ⟨jo, [c], fs⟩ cid x.1 x.2).1 cid t =
      ⟨jo, [run_interviews c (x :: t)], fs⟩
    rw [hstep, hrec]
    rfl

/-- C6: for a candidate holding an interview schedule with a (duplicate-free,
non-empty) stage list, conducting one interview per scheduled stage moves the
candidate to `all_interviews_completed` exactly once — every proper initial
segment of the calls leaves the status and final evaluation untouched, the
full run sets them — and it attaches a final evaluation whose score is the
3:2-weighted blend of the screening overall score with the mean of the
per-stage scores `min(100, 2·wordCount(feedback))`, rounded to two decimals
and lying in [0,100]; iterating `conduct_interview` itself on a state holding
just this candidate produces exactly this per-candidate run. -/
theorem claim_C6 (c0 : Candidate) (sched : InterviewSchedule) (sr : ScreeningResult)
    (calls : List (String × String))
    (hsched : c0.interview_schedule = some sched)
    (hstat0 : c0.interview_status = [])
    (hstatus : c0.status = "interview_scheduled")
    (hfe0 : c0.final_evaluation = none)
    (hsr : c0.screening_result = some sr)
    (hov0 : 0 ≤ sr.overall_score) (hov1 : sr.overall_score ≤ 100)
    (hS : calls.map Prod.fst = sched.interview_stages)
    (hnd : sched.interview_stages.Nodup)
    (hne : calls ≠ []) :
    (run_interviews c0 calls).status = "all_interviews_completed"
    ∧ (∀ pre, pre <+: calls → pre ≠ calls →
        (run_interviews c0 pre).status = "interview_scheduled" ∧
        (run_interviews c0 pre).final_evaluation = none)
    ∧ (run_interviews c0 calls).final_evaluation = some
        { final_score := round2 (sr.overall_score * (6/10) +
            (((calls.map (fun p => ((min 100 (wordCount p.2 * 2) : ℕ) : ℚ))).sum) /
              ((calls.length : ℚ))) * (4/10))
          interview_performance :=
            calls.map (fun p => ((min 100 (wordCount p.2 * 2) : ℕ) : ℚ))
          recommendation := get_final_recommendation (sr.overall_score * (6/10) +
            (((calls.map (fun p => ((min 100 (wordCount p.2 * 2) : ℕ) : ℚ))).sum) /
              ((calls.length : ℚ))) * (4/10)) }
    ∧ (0 ≤ round2 (sr.overall_score * (6/10) +
          (((calls.map (fun p => ((min 100 (wordCount p.2 * 2) : ℕ) : ℚ))).sum) /
            ((calls.length : ℚ))) * (4/10))
        ∧ round2 (sr.overall_score * (6/10) +
            (((calls.map (fun p => ((min 100 (wordCount p.2 * 2) : ℕ) : ℚ))).sum) /
              ((calls.length : ℚ))) * (4/10)) ≤ 100)
    ∧ (∀ (jo : List JobRequirement) (fsel : List FinalSelectionRec),
        run_interviews_state ⟨jo, [c0], fsel⟩ c0.candidate_id calls =
          ⟨jo, [run_interviews c0 calls], fsel⟩) := by
  have hfull := run_interviews_full c0 sched hsched hstat0 calls hS hnd hne
  have heval := evaluate_final_mid c0 sr hsr calls hne
  have hsc : ∀ x ∈ calls.map (fun p => ((min 100 (wordCount p.2 * 2) : ℕ) : ℚ)),
      0 ≤ x ∧ x ≤ 100 := by
    intro x hx
    rcases List.mem_map.mp hx with ⟨q, _, rfl⟩
    refine ⟨by positivity, ?_⟩
    exact_mod_cast min_le_left 100 _
  have hscne : calls.map (fun p => ((min 100 (wordCount p.2 * 2) : ℕ) : ℚ)) ≠ [] := by
    simpa using hne
  have hb := avg_bounds _ hscne hsc
  rw [List.length_map] at hb
  refine ⟨?_, ?_, ?_, ⟨?_, ?_⟩, ?_⟩
  · rw [hfull]
    rfl
  · intro pre hpre hneq
    have hlencalls : calls.length = sched.interview_stages.length := by
      rw [← hS, List.length_map]
    have hlt : pre.length < sched.interview_stages.length := by
      rcases lt_or_eq_of_le hpre.length_le with h | h
      · omega
      · exact absurd (hpre.eq_of_length h) hneq
    rw [run_interviews_proper c0 sched hsched hstat0 calls hS hnd pre hpre hlt]
    exact ⟨hstatus, hfe0⟩
  · rw [hfull]
    show some (evaluate_final_candidate (midCandidate c0 calls)) = _
    rw [heval]
  · apply round2_nonneg
    have h1 : 0 ≤ sr.overall_score * (6/10) := mul_nonneg hov0 (by norm_num)
    have h2 : 0 ≤ ((calls.map (fun p => ((min 100 (wordCount p.2 * 2) : ℕ) : ℚ))).sum /
        ((calls.length : ℚ))) * (4/10) := mul_nonneg hb.1 (by norm_num)
    linarith
  · apply round2_le_hundred
    have h1 : sr.overall_score * (6/10) ≤ 100 * (6/10) :=
      mul_le_mul_of_nonneg_right hov1 (by norm_num)
    have h2 : ((calls.map (fun p => ((min 100 (wordCount p.2 * 2) : ℕ) : ℚ))).sum /
        ((calls.length : ℚ))) * (4/10) ≤ 100 * (4/10) :=
      mul_le_mul_of_nonneg_right hb.2 (by norm_num)
    linarith
  · intro jo fsel
    exact run_state_singleton jo fsel c0.candidate_id calls c0 rfl

def sampleSchedule : InterviewSchedule :=
  { candidate_id := "c1", position := "QA Engineer",
    interview_stages := ["Initial Screening", "HR Interview"],
    total_duration := 75, status := "scheduled" }

def sampleScheduled : Candidate :=
  { candidate_id := "c1", candidate_name := "Alice", position := "QA Engineer",
    status := "interview_scheduled", screening_result := some sampleScreening,
    interview_schedule := some sampleSchedule, interview_status := [],
    final_evaluation := none, selection_notes := "", application_date := 0,
    selection_date := 0 }

def sampleCalls : List (String × String) :=
  [("Initial Screening", "strong communication"), ("HR Interview", "good fit")]

theorem claim_C6_witness :
    (run_interviews sampleScheduled sampleCalls).status = "all_interviews_completed"
    ∧ (run_interviews sampleScheduled [("Initial Screening", "strong communication")]).status =
        "interview_scheduled" := by
  have h := claim_C6 sampleScheduled sampleSchedule sampleScreening sampleCalls
    rfl rfl rfl rfl rfl (by norm_num [sampleScreening]) (by norm_num [sampleScreening])
    rfl (by decide) (by decide)
  exact ⟨h.1, (h.2.1 [("Initial Screening", "strong communication")]
    ⟨[("HR Interview", "good fit")], rfl⟩ (by decide)).1⟩

theorem claim_C1_witness :
    (analyze_skill_match "" ["Python"]).score = 0
    ∧ (analyze_skill_match "" ["Python"]).matched_skills = []
    ∧ (analyze_skill_match "" ["Python"]).missing_skills = ["Python"] :=
  (claim_C1 "" ["Python"] (by simp)).2.2.2.2 rfl

end HRAuto
